import Mathlib

/-!
# YJIT IR backend: operand model and opcode catalogue

A shallow embedding of `yjit_backend.h`: the operand kinds, the register
payload, the tagged operand record, the predefined operand constants, the
opcode enumeration and the instruction record.  Bit-fields and fixed-width
fields are natural numbers; every store into a field of width `w` goes through
`bitfield w`, i.e. reduction modulo `2 ^ w`.
-/

namespace Yjit

/-- Store of an unsigned value into a field of `w` bits. -/
def bitfield (w v : Nat) : Nat := v % 2 ^ w

/-- Operand kinds, `enum yjit_ir_opnd_type`. -/
inductive yjit_ir_opnd_type
  | EIR_VOID
  | EIR_VALUE
  | EIR_INSN_OUT
  | EIR_CODE_PTR
  | EIR_LABEL_NAME
  | EIR_LABEL_IDX
  | EIR_MEM
  | EIR_IMM
  | EIR_REG
  deriving DecidableEq, Repr

open yjit_ir_opnd_type

/-- Numeric value of an operand kind: `EIR_VOID = 0`, then one more for each
enumerator in declaration order. -/
def yjit_ir_opnd_type.code : yjit_ir_opnd_type → Nat
  | EIR_VOID => 0
  | EIR_VALUE => 1
  | EIR_INSN_OUT => 2
  | EIR_CODE_PTR => 3
  | EIR_LABEL_NAME => 4
  | EIR_LABEL_IDX => 5
  | EIR_MEM => 6
  | EIR_IMM => 7
  | EIR_REG => 8

/-- Register value used by IR operands, `ir_reg_t`: `uint8_t idx : 5` and
`bool special : 1`. -/
structure ir_reg_t where
  idx : Nat
  special : Bool
  deriving DecidableEq, Repr

/-- The payload union `as` of `ir_opnd_t`, one constructor per union member. -/
inductive ir_opnd_as
  | mem (disp : Nat) (base : ir_reg_t)
  | reg (r : ir_reg_t)
  | value (v : Nat)
  | imm (i : Int)
  | u_imm (u : Nat)
  | idx (i : Nat)
  | code_ptr (p : Nat)
  | str (s : Nat)
  deriving DecidableEq, Repr

/-- Operand to an IR instruction, `ir_opnd_t`: the payload, `uint8_t num_bits`
and `uint8_t kind : 4`. -/
structure ir_opnd_t where
  as : ir_opnd_as
  num_bits : Nat
  kind : Nat
  deriving DecidableEq, Repr

/-- The all-zero payload left by a compound literal that names no member of
the union: its first member `mem` with every field zero. -/
def as_zero : ir_opnd_as := .mem 0 ⟨0, false⟩

/-- `IR_VOID`: `(ir_opnd_t){ .kind = EIR_VOID }`; the fields not named are
zero. -/
def IR_VOID : ir_opnd_t :=
  { as := as_zero, num_bits := 0, kind := bitfield 4 EIR_VOID.code }

/-- `IR_EC`: register index 0, special. -/
def IR_EC : ir_opnd_t :=
  { as := .reg ⟨bitfield 5 0, true⟩, num_bits := bitfield 8 64, kind := bitfield 4 EIR_REG.code }

/-- `IR_CFP`: register index 1, special. -/
def IR_CFP : ir_opnd_t :=
  { as := .reg ⟨bitfield 5 1, true⟩, num_bits := bitfield 8 64, kind := bitfield 4 EIR_REG.code }

/-- `IR_SP`: register index 2, special. -/
def IR_SP : ir_opnd_t :=
  { as := .reg ⟨bitfield 5 2, true⟩, num_bits := bitfield 8 64, kind := bitfield 4 EIR_REG.code }

/-- `IR_SELF`: register index 3, special. -/
def IR_SELF : ir_opnd_t :=
  { as := .reg ⟨bitfield 5 3, true⟩, num_bits := bitfield 8 64, kind := bitfield 4 EIR_REG.code }

/-- `IR_REG(x86reg)`: low-level register operand.  The argument is the value of
`x86reg.as.reg.reg_no` (the x86 operand type is declared outside this header);
`special` is not named by the initialiser and is therefore zero. -/
def IR_REG (reg_no : Nat) : ir_opnd_t :=
  { as := .reg ⟨bitfield 5 reg_no, false⟩, num_bits := bitfield 8 64,
    kind := bitfield 4 EIR_REG.code }

/-- Instruction opcodes, `enum yjit_ir_op`, with the upper bound `OP_MAX` as
its last enumerator. -/
inductive yjit_ir_op
  | OP_COMMENT
  | OP_LABEL
  | OP_ADD
  | OP_SUB
  | OP_AND
  | OP_NOT
  | OP_JUMP_EQ
  | OP_JUMP_NE
  | OP_JUMP_OVF
  | OP_CALL
  | OP_CCALL
  | OP_RET
  | OP_RETVAL
  | OP_MOV
  | OP_CMP
  | OP_CMOV_GE
  | OP_CMOV_GT
  | OP_CMOV_LE
  | OP_CMOV_LT
  | OP_SELECT_GE
  | OP_SELECT_GT
  | OP_SELECT_LE
  | OP_SELECT_LT
  | OP_MAX
  deriving DecidableEq, Repr

open yjit_ir_op

/-- Numeric value of an opcode: no enumerator has an explicit value, so they
count up from zero in declaration order. -/
def yjit_ir_op.code : yjit_ir_op → Nat
  | OP_COMMENT => 0
  | OP_LABEL => 1
  | OP_ADD => 2
  | OP_SUB => 3
  | OP_AND => 4
  | OP_NOT => 5
  | OP_JUMP_EQ => 6
  | OP_JUMP_NE => 7
  | OP_JUMP_OVF => 8
  | OP_CALL => 9
  | OP_CCALL => 10
  | OP_RET => 11
  | OP_RETVAL => 12
  | OP_MOV => 13
  | OP_CMP => 14
  | OP_CMOV_GE => 15
  | OP_CMOV_GT => 16
  | OP_CMOV_LE => 17
  | OP_CMOV_LT => 18
  | OP_SELECT_GE => 19
  | OP_SELECT_GT => 20
  | OP_SELECT_LE => 21
  | OP_SELECT_LT => 22
  | OP_MAX => 23

/-- The opcodes usable in an instruction: every enumerator except `OP_MAX`
("Not used for actual instructions"). -/
def opcodes : List yjit_ir_op :=
  [OP_COMMENT, OP_LABEL, OP_ADD, OP_SUB, OP_AND, OP_NOT, OP_JUMP_EQ, OP_JUMP_NE,
   OP_JUMP_OVF, OP_CALL, OP_CCALL, OP_RET, OP_RETVAL, OP_MOV, OP_CMP,
   OP_CMOV_GE, OP_CMOV_GT, OP_CMOV_LE, OP_CMOV_LT,
   OP_SELECT_GE, OP_SELECT_GT, OP_SELECT_LE, OP_SELECT_LT]

/-- IR instruction, `ir_insn_t`: the operand array, `uint32_t pos` and
`uint8_t op`. -/
structure ir_insn_t where
  opnds : List ir_opnd_t
  pos : Nat
  op : Nat
  deriving DecidableEq, Repr

/-- An instruction record with opcode `op` stored in its 8-bit field, the given
operands, and the position not yet assigned. -/
def mk_insn (op : yjit_ir_op) (opnds : List ir_opnd_t) : ir_insn_t :=
  { opnds := opnds, pos := 0, op := bitfield 8 op.code }

/-- C1: each of `IR_EC`, `IR_CFP`, `IR_SP`, `IR_SELF` is an operand of kind
`EIR_REG` with `num_bits = 64` and the special flag set, with register indices
0, 1, 2, 3 respectively, and the four are pairwise distinct. -/
theorem special_regs_predefined :
    (IR_EC.kind = EIR_REG.code ∧ IR_EC.num_bits = 64 ∧ IR_EC.as = .reg ⟨0, true⟩) ∧
    (IR_CFP.kind = EIR_REG.code ∧ IR_CFP.num_bits = 64 ∧ IR_CFP.as = .reg ⟨1, true⟩) ∧
    (IR_SP.kind = EIR_REG.code ∧ IR_SP.num_bits = 64 ∧ IR_SP.as = .reg ⟨2, true⟩) ∧
    (IR_SELF.kind = EIR_REG.code ∧ IR_SELF.num_bits = 64 ∧ IR_SELF.as = .reg ⟨3, true⟩) ∧
    IR_EC ≠ IR_CFP ∧ IR_EC ≠ IR_SP ∧ IR_EC ≠ IR_SELF ∧
    IR_CFP ≠ IR_SP ∧ IR_CFP ≠ IR_SELF ∧ IR_SP ≠ IR_SELF := by
  decide

/-- C2, as stated, fails: the register operand with `idx = 4` and the special
flag set is representable (kind `EIR_REG`, index below `2 ^ 5`), and its
payload is none of the four reserved ones. -/
theorem special_flag_not_only_four :
    ({ as := .reg ⟨4, true⟩, num_bits := 64, kind := 8 } : ir_opnd_t).kind = EIR_REG.code ∧
    (⟨4, true⟩ : ir_reg_t).idx < 2 ^ 5 ∧ (⟨4, true⟩ : ir_reg_t).special = true ∧
    ({ as := .reg ⟨4, true⟩, num_bits := 64, kind := 8 } : ir_opnd_t).as ≠ IR_EC.as ∧
    ({ as := .reg ⟨4, true⟩, num_bits := 64, kind := 8 } : ir_opnd_t).as ≠ IR_CFP.as ∧
    ({ as := .reg ⟨4, true⟩, num_bits := 64, kind := 8 } : ir_opnd_t).as ≠ IR_SP.as ∧
    ({ as := .reg ⟨4, true⟩, num_bits := 64, kind := 8 } : ir_opnd_t).as ≠ IR_SELF.as := by
  decide

/-- C2, amended: for a register operand whose special flag is set, the payload
is that of `IR_EC`, `IR_CFP`, `IR_SP` or `IR_SELF` exactly when its index is
below 4. -/
theorem special_flag_reserved_iff (o : ir_opnd_t) (r : ir_reg_t)
    (_hk : o.kind = EIR_REG.code) (ha : o.as = .reg r) (hs : r.special = true) :
    (o.as = IR_EC.as ∨ o.as = IR_CFP.as ∨ o.as = IR_SP.as ∨ o.as = IR_SELF.as) ↔ r.idx < 4 := by
  obtain ⟨i, s⟩ := r
  simp only at hs
  subst hs
  rw [ha]
  simp only [IR_EC, IR_CFP, IR_SP, IR_SELF, bitfield, ir_opnd_as.reg.injEq, ir_reg_t.mk.injEq,
    and_true]
  norm_num
  omega

/-- Instance of `special_flag_reserved_iff` at the stack-pointer register. -/
theorem special_flag_reserved_iff_witness :
    (IR_SP.as = IR_EC.as ∨ IR_SP.as = IR_CFP.as ∨ IR_SP.as = IR_SP.as ∨ IR_SP.as = IR_SELF.as)
      ↔ (2 : Nat) < 4 :=
  special_flag_reserved_iff IR_SP ⟨2, true⟩ (by decide) (by decide) rfl

/-- C3: for every machine register number, `IR_REG` yields a register operand
whose special flag is clear, hence an operand different from each of `IR_EC`,
`IR_CFP`, `IR_SP`, `IR_SELF`, also when the number is one of 0..3. -/
theorem ir_reg_never_special (reg_no : Nat) :
    (IR_REG reg_no).as = .reg ⟨reg_no % 32, false⟩ ∧
    IR_REG reg_no ≠ IR_EC ∧ IR_REG reg_no ≠ IR_CFP ∧
    IR_REG reg_no ≠ IR_SP ∧ IR_REG reg_no ≠ IR_SELF := by
  refine ⟨rfl, ?_, ?_, ?_, ?_⟩ <;>
  · intro h
    have h2 := congrArg ir_opnd_t.as h
    simp [IR_REG, IR_EC, IR_CFP, IR_SP, IR_SELF] at h2

/-- C4, as stated, fails at `IR_VOID`: its `num_bits` is 0, which is none of
8, 16, 32, 64. -/
theorem ir_void_width_zero :
    IR_VOID.num_bits = 0 ∧
    ¬ (IR_VOID.num_bits = 8 ∨ IR_VOID.num_bits = 16 ∨ IR_VOID.num_bits = 32 ∨
       IR_VOID.num_bits = 64) := by
  decide

/-- C4, amended: the register operands `IR_EC`, `IR_CFP`, `IR_SP`, `IR_SELF`
and `IR_REG(r)` for every machine register have width 64; the void operand
`IR_VOID` has width 0. -/
theorem operand_constant_widths (reg_no : Nat) :
    IR_EC.num_bits = 64 ∧ IR_CFP.num_bits = 64 ∧ IR_SP.num_bits = 64 ∧
    IR_SELF.num_bits = 64 ∧ (IR_REG reg_no).num_bits = 64 ∧ IR_VOID.num_bits = 0 :=
  ⟨rfl, rfl, rfl, rfl, rfl, rfl⟩

/-! ## The operand constructors -/

/-- C8: `OP_MAX` is a strict upper bound for opcodes.  The catalogue has
exactly 23 opcodes, numbered 0..22 in declaration order (hence pairwise
distinct), `OP_MAX = 23`, every enumerator other than `OP_MAX` is in the
catalogue with a code below `OP_MAX`, and an opcode stored in the 8-bit `op`
field of an instruction reads back unchanged. -/
theorem opcode_catalogue (op : yjit_ir_op) (opnds : List ir_opnd_t) :
    opcodes.length = 23 ∧
    opcodes.map yjit_ir_op.code = List.range 23 ∧
    (opcodes.map yjit_ir_op.code).Nodup ∧
    OP_MAX.code = 23 ∧
    (op ∈ opcodes ↔ op ≠ OP_MAX) ∧
    (op ∈ opcodes ↔ op.code < OP_MAX.code) ∧
    Function.Injective yjit_ir_op.code ∧
    (mk_insn op opnds).op = op.code := by
  refine ⟨rfl, by decide, by decide, rfl, ?_, ?_, ?_, ?_⟩
  · cases op <;> decide
  · cases op <;> decide
  · intro a b
    cases a <;> cases b <;> decide
  · cases op <;> rfl

/-- C9: storing an operand kind in the 4-bit `kind` field is lossless.  For
each of the nine kinds the code modulo `2 ^ 4` is the code itself, the codes
run from `EIR_VOID = 0` to `EIR_REG = 8`, distinct kinds stay distinct once
stored, and the zero-initialised operand has kind `EIR_VOID`. -/
theorem kind_field_lossless (k : yjit_ir_opnd_type) :
    bitfield 4 k.code = k.code ∧
    k.code ≤ 8 ∧ EIR_VOID.code = 0 ∧ EIR_REG.code = 8 ∧
    Function.Injective (fun j : yjit_ir_opnd_type => bitfield 4 j.code) ∧
    ({ as := as_zero, num_bits := 0, kind := 0 } : ir_opnd_t).kind = bitfield 4 EIR_VOID.code ∧
    IR_VOID = { as := as_zero, num_bits := 0, kind := 0 } := by
  refine ⟨?_, ?_, rfl, rfl, ?_, rfl, rfl⟩
  · cases k <;> rfl
  · cases k <;> decide
  · intro a b
    cases a <;> cases b <;> decide

/-- C10: `IR_REG` stores the machine register number in the 5-bit `idx` field,
i.e. modulo 32.  For a number below 32 the stored index is the number itself,
so `IR_REG` is injective on those registers; two numbers that differ by a
multiple of 32 give the same operand. -/
theorem ir_reg_idx_mod_32 (a b k : Nat) :
    (IR_REG a).as = .reg ⟨a % 32, false⟩ ∧
    (a < 32 → (IR_REG a).as = .reg ⟨a, false⟩) ∧
    (a < 32 → b < 32 → IR_REG a = IR_REG b → a = b) ∧
    IR_REG (a + 32 * k) = IR_REG a := by
  refine ⟨rfl, ?_, ?_, ?_⟩
  · intro ha
    simp [IR_REG, bitfield, Nat.mod_eq_of_lt ha]
  · intro ha hb h
    have h2 := congrArg ir_opnd_t.as h
    simp only [IR_REG, bitfield, ir_opnd_as.reg.injEq, ir_reg_t.mk.injEq, and_true] at h2
    omega
  · simp [IR_REG, bitfield]

/-- Instance of `ir_reg_idx_mod_32`: register 15 keeps its number, and
register numbers 15 and 47 give the same operand. -/
theorem ir_reg_idx_mod_32_witness :
    (IR_REG 15).as = .reg ⟨15, false⟩ ∧ ((15 : Nat) = 15) ∧ IR_REG (15 + 32 * 1) = IR_REG 15 :=
  ⟨(ir_reg_idx_mod_32 15 15 1).2.1 (by decide),
   (ir_reg_idx_mod_32 15 15 1).2.2.1 (by decide) (by decide) rfl,
   (ir_reg_idx_mod_32 15 15 1).2.2.2⟩

end Yjit
